import Mathlib

/-!
Verification of the game-rules service of the distributed two-person game
system (tic-tac-toe over websockets).  The Python source
(backend/game-rules-service/main.py) is shallowly embedded: the per-room
mutable dict becomes the structure `Game`, the global `games` dict becomes an
association list `Registry`, and each handler becomes a pure function from
the old state to the new state together with the list of frames it sends.

Python values that may be a string or `None` (cells of the board, the turn
pointer, dictionary lookups) are embedded as `Option String`: `none` is the
Python `None` and `some s` the Python string `s`; in particular the empty
cell is `some ""`.
-/

namespace GameRules

/-- A board cell as stored by the Python code: a string, or Python `None`
(which `board[index] = mark_map.get(player_id)` can in principle write). -/
abbrev Cell := Option String

/-- Python truthiness of a cell value: `None` and `""` are falsy, every other
string is truthy.  This is the test `if board[a]` of `check_winner`. -/
def truthy : Cell → Bool
  | none => false
  | some s => s ≠ ""

/-- The read `board[i]` (the code only performs it at indices 0..8 of a
9-element board, so the default is never hit in reachable states). -/
def cellAt (board : List Cell) (i : Nat) : Cell := board.getD i none

/-- The 8 fixed winning triples of `check_winner`, in the source's order:
3 rows, 3 columns, 2 diagonals. -/
def lines : List (Nat × Nat × Nat) :=
  [(0,1,2), (3,4,5), (6,7,8),
   (0,3,6), (1,4,7), (2,5,8),
   (0,4,8), (2,4,6)]

/-- The loop of `check_winner`: scan the triples in order, returning
`board[a]` at the first triple with three equal truthy cells; after the loop,
`"draw"` if no cell equals `""`, else `None`.  (Note the Python guard
`all(cell != "" for cell in board)` treats a `None` cell as non-empty.) -/
def check_lines (board : List Cell) : List (Nat × Nat × Nat) → Option String
  | [] => if board.all (fun cell => cell ≠ some "") then some "draw" else none
  | t :: rest =>
    if truthy (cellAt board t.1) ∧ cellAt board t.1 = cellAt board t.2.1 ∧
        cellAt board t.1 = cellAt board t.2.2 then cellAt board t.1
    else check_lines board rest

/-- `check_winner(board)`: `"X"` or `"O"` on a completed line, `"draw"` on a
full board without one, `None` while the game continues. -/
def check_winner (board : List Cell) : Option String := check_lines board lines

/-- Spec-side predicate: triple `t` holds three equal non-empty cells of the
mark `M`. -/
def tripleWins (board : List Cell) (M : String) (t : Nat × Nat × Nat) : Prop :=
  M ≠ "" ∧ cellAt board t.1 = some M ∧ cellAt board t.2.1 = some M ∧
    cellAt board t.2.2 = some M

/-- Spec-side predicate: triple `t` holds three equal non-empty cells of some
mark. -/
def tripleMatches (board : List Cell) (t : Nat × Nat × Nat) : Prop :=
  ∃ M, tripleWins board M t

instance (board : List Cell) (M : String) (t : Nat × Nat × Nat) :
    Decidable (tripleWins board M t) := by
  unfold tripleWins; infer_instance

instance (board : List Cell) (t : Nat × Nat × Nat) :
    Decidable (tripleMatches board t) := by
  have h : tripleMatches board t ↔
      truthy (cellAt board t.1) ∧ cellAt board t.1 = cellAt board t.2.1 ∧
        cellAt board t.1 = cellAt board t.2.2 := by
    constructor
    · rintro ⟨M, hM, h1, h2, h3⟩
      rw [h1, h2, h3]
      exact ⟨by simp [truthy, hM], rfl, rfl⟩
    · rintro ⟨ht, h12, h13⟩
      match hx : cellAt board t.1 with
      | none => rw [hx] at ht; simp [truthy] at ht
      | some s =>
        rw [hx] at ht h12 h13
        exact ⟨s, by simpa [truthy] using ht, hx, h12.symm, h13.symm⟩
  exact decidable_of_iff _ h.symm

/-- An outbound frame.  `errorTo`/`infoTo` are `send_text` calls on one
participant's websocket; `stateTo` is one delivery of a state snapshot
(board, players, turn, optional winner, message) produced by a broadcast. -/
inductive Msg where
  | errorTo (pid : String) (text : String)
  | infoTo (pid : String) (text : String)
  | stateTo (pid : String) (board : List Cell) (players : List String)
      (turn : Option String) (winner : Option String) (text : String)
  deriving DecidableEq

/-- The per-room dict stored in `games[room_id]`.  Python dicts `mark_map`
and `sockets` are embedded as insertion-ordered association lists; for
`sockets` only the set of registered participant ids matters to the state
machine, so it is the list of keys. -/
structure Game where
  board : List Cell
  players : List String
  mark_map : List (String × String)
  turn : Option String
  sockets : List String
  deriving DecidableEq

/-- The fresh per-room state built on first connection:
board of nine `""` cells, no players, no marks, `turn = None`, no sockets. -/
def freshGame : Game :=
  { board := List.replicate 9 (some ""), players := [], mark_map := [],
    turn := none, sockets := [] }

/-- The global `games` dict, as an association list room id → game. -/
abbrev Registry := List (String × Game)

/-- Dict read `games.get(room_id)` / `room_id in games`. -/
def lookupRoom (reg : Registry) (room : String) : Option Game :=
  (reg.find? (fun e => e.1 = room)).map (fun e => e.2)

/-- Dict write `games[room_id] = g`: replace the first binding of the key,
or append a new binding. -/
def setRoom : Registry → String → Game → Registry
  | [], room, g => [(room, g)]
  | e :: rest, room, g =>
    if e.1 = room then (room, g) :: rest else e :: setRoom rest room g

/-- Dict read `d.get(k)` on a string-valued dict. -/
def lookupMark (m : List (String × String)) (k : String) : Option String :=
  (m.find? (fun e => e.1 = k)).map (fun e => e.2)

/-- Dict call `d.setdefault(k, v)`: insert `(k, v)` only if `k` is absent. -/
def setdefaultMark (m : List (String × String)) (k v : String) :
    List (String × String) :=
  if (lookupMark m k).isSome then m else m ++ [(k, v)]

/-- `user_exists(user_id)`: issues `GET /users/{user_id}` against the User
Service; the outcome of that request is passed in as `resp` (`Except.error`
is a raised `requests.RequestException`, `Except.ok code` a reply with the
given status code).  Returns `r.status_code == 200`, and `False` on any
transport exception. -/
def user_exists (user_id : String) (resp : Except Unit Nat) : Bool :=
  match user_id, resp with
  | _, Except.error _ => false
  | _, Except.ok code => code = 200

/-- Body of a reply to `GET /rooms` of the Room Service: either the
`{"message": ...}` dict it returns when no rooms exist, or a list of rooms,
each carrying its `id` and its `players` list. -/
inductive RoomsBody where
  | message
  | rooms (rs : List (String × List String))

/-- `user_in_room(room_id, user_id)`: issues `GET /rooms` (outcome passed in
as `resp`), fails on a transport exception or a non-200 status or the
empty-rooms message dict, and otherwise scans the room list for the first
room whose `id` equals `room_id`, answering whether `user_id` is among its
`players`. -/
def user_in_room (room_id : String) (user_id : String)
    (resp : Except Unit (Nat × RoomsBody)) : Bool :=
  match resp with
  | Except.error _ => false
  | Except.ok (status, body) =>
    if status ≠ 200 then false
    else match body with
      | RoomsBody.message => false
      | RoomsBody.rooms rs =>
        match rs.find? (fun r => r.1 = room_id) with
        | some r => user_id ∈ r.2
        | none => false

/-- Modelled from the spec: `broadcast_state` is invoked by the service but
its definition is not under src/.  Per §4.5 and §6 it sends the same `state`
snapshot (grid, roster, turn, role map, optional winner, message) to every
channel currently present in `session.channels`, best-effort. -/
def broadcast_state (g : Game) (winner : Option String) (text : String) :
    List Msg :=
  g.sockets.map (fun p => Msg.stateTo p g.board g.players g.turn winner text)

/-- Modelled from the spec: `reset_game_state` is invoked by the service but
its definition is not under src/.  Per §4.4 it resets the session in place:
grid cleared to all-empty, turn set to `roster[0]` if the roster is
non-empty else none; roster, role map and channels are untouched. -/
def reset_game_state (g : Game) : Game :=
  { g with board := List.replicate 9 (some ""), turn := g.players.head? }

/-- Modelled from the spec: `notify_remaining_on_disconnect` is invoked by
the service but its definition is not under src/.  Per §4.3 step 7 it sends
an informational opponent-disconnected message to the remaining live
channels and changes no state. -/
def notify_remaining_on_disconnect (g : Game) : List Msg :=
  g.sockets.map (fun p => Msg.infoTo p "Opponent disconnected")

instance {ε α : Type} [DecidableEq ε] [DecidableEq α] :
    DecidableEq (Except ε α) := fun x y =>
  match x, y with
  | Except.ok a, Except.ok b =>
    if h : a = b then isTrue (by rw [h])
    else isFalse (by intro hh; cases hh; exact h rfl)
  | Except.error a, Except.error b =>
    if h : a = b then isTrue (by rw [h])
    else isFalse (by intro hh; cases hh; exact h rfl)
  | Except.ok _, Except.error _ => isFalse (by intro hh; cases hh)
  | Except.error _, Except.ok _ => isFalse (by intro hh; cases hh)

/-- Body of `handle_move` executed under the session lock: validation in
source order (membership, turn, index, occupancy), then the move, the
outcome check and the win/draw/continue transition.  The requested index is
`some i` when the frame carried an `int` (`isinstance(index, int)`), `none`
otherwise.  `Except.error` is the `KeyError` raised by the direct dict
access `game["sockets"][player_id]` in the index/occupancy branches when the
requester has no registered socket (the two earlier branches use
`sockets.get` and silently skip the send instead). -/
def handle_move_body (g : Game) (player_id : String) (index : Option Int) :
    Except String (Game × List Msg) :=
  if player_id ∉ g.players then
    Except.ok (g, if player_id ∈ g.sockets then
      [Msg.errorTo player_id "You are not a player in this game"] else [])
  else if g.turn ≠ some player_id then
    Except.ok (g, if player_id ∈ g.sockets then
      [Msg.errorTo player_id "Not your turn"] else [])
  else
    match index with
    | none =>
      if player_id ∈ g.sockets then
        Except.ok (g, [Msg.errorTo player_id "Invalid index"])
      else Except.error "KeyError"
    | some i =>
      if i < 0 ∨ i > 8 then
        if player_id ∈ g.sockets then
          Except.ok (g, [Msg.errorTo player_id "Invalid index"])
        else Except.error "KeyError"
      else if cellAt g.board i.toNat ≠ some "" then
        if player_id ∈ g.sockets then
          Except.ok (g, [Msg.errorTo player_id "Cell already occupied"])
        else Except.error "KeyError"
      else
        let mark := lookupMark g.mark_map player_id
        let g1 := { g with board := g.board.set i.toNat mark }
        let result := check_winner g1.board
        if result = some "X" ∨ result = some "O" then
          let winner_id := g1.mark_map.foldl
            (fun acc e => if some e.2 = result then some e.1 else acc) none
          Except.ok (reset_game_state g1,
            broadcast_state g1 winner_id "Player wins")
        else if result = some "draw" then
          Except.ok (reset_game_state g1,
            broadcast_state g1 (some "draw") "Draw!")
        else
          let other := g1.players.filter (fun p => p ≠ player_id)
          let next_player := other.head?
          let g2 := { g1 with turn := next_player }
          Except.ok (g2, broadcast_state g2 none "Player moved")

/-- `handle_move(room_id, player_id, index)`: returns silently when no
session exists for the room, otherwise runs the locked body and stores the
updated session back in the registry. -/
def handle_move (reg : Registry) (room_id : String) (player_id : String)
    (index : Option Int) : Except String (Registry × List Msg) :=
  match lookupRoom reg room_id with
  | none => Except.ok (reg, [])
  | some g =>
    match handle_move_body g player_id index with
    | Except.ok (g2, msgs) => Except.ok (setRoom reg room_id g2, msgs)
    | Except.error e => Except.error e

/-- Registration block of `websocket_endpoint`: append the player to
`players` if new. -/
def registerPlayer (g : Game) (player_id : String) : Game :=
  if player_id ∈ g.players then g
  else { g with players := g.players ++ [player_id] }

/-- Registration block of `websocket_endpoint`: store the websocket under
`sockets[player_id]`. -/
def registerSocket (g : Game) (player_id : String) : Game :=
  { g with sockets := g.sockets ++ [player_id] }

/-- Mark assignment of `websocket_endpoint`: if the player has no mark,
first mark assigned is `"X"`, second is `"O"`, and with two marks already
assigned nothing happens. -/
def assignMark (g : Game) (player_id : String) : Game :=
  if (lookupMark g.mark_map player_id).isSome then g
  else if g.mark_map.length = 0 then
    { g with mark_map := g.mark_map ++ [(player_id, "X")] }
  else if g.mark_map.length = 1 then
    { g with mark_map := g.mark_map ++ [(player_id, "O")] }
  else g

/-- Start block of `websocket_endpoint`: with two players and two sockets,
`setdefault` both marks, give the turn to the first joiner and broadcast the
started state; otherwise send this connection a waiting info frame. -/
def startIfReady (g : Game) (player_id : String) : Game × List Msg :=
  if g.players.length = 2 ∧ g.sockets.length = 2 then
    let p1 := g.players.getD 0 ""
    let p2 := g.players.getD 1 ""
    let g2 := { g with
      mark_map := setdefaultMark (setdefaultMark g.mark_map p1 "X") p2 "O",
      turn := some p1 }
    (g2, broadcast_state g2 none "Game started")
  else (g, [Msg.infoTo player_id "Waiting for opponent..."])

/-- Result of one connection attempt: the new registry, the frames sent, and
whether the server closed the websocket. -/
structure ConnectResult where
  reg : Registry
  msgs : List Msg
  closed : Bool
  deriving DecidableEq

/-- Admission and registration part of `websocket_endpoint` for a new
connection `(room_id, player_id)`.  The outcomes of the two external HTTP
calls are passed in as `userResp` and `roomsResp`.  Order as in the source:
identity check, membership check, get-or-create of the session, duplicate
connection check, registration, mark assignment, start-or-wait. -/
def connectStep (reg : Registry) (room_id : String) (player_id : String)
    (userResp : Except Unit Nat) (roomsResp : Except Unit (Nat × RoomsBody)) :
    ConnectResult :=
  if user_exists player_id userResp = false then
    ⟨reg, [Msg.errorTo player_id "User not found in User Service"], true⟩
  else if user_in_room room_id player_id roomsResp = false then
    ⟨reg, [Msg.errorTo player_id "User not in the specified room"], true⟩
  else
    let reg1 := match lookupRoom reg room_id with
      | some _ => reg
      | none => reg ++ [(room_id, freshGame)]
    let g0 := match lookupRoom reg room_id with
      | some g => g
      | none => freshGame
    if player_id ∈ g0.sockets then
      ⟨reg1, [Msg.errorTo player_id "Player already connected"], true⟩
    else
      let g3 := assignMark (registerSocket (registerPlayer g0 player_id)
        player_id) player_id
      let (g4, msgs) := startIfReady g3 player_id
      ⟨setRoom reg1 room_id g4, msgs, false⟩

/-- Disconnect handler of `websocket_endpoint` (the `WebSocketDisconnect`
branch): if the room still exists, delete the player's socket entry and
notify the remaining live channels; the roster and the rest of the session
survive. -/
def disconnectStep (reg : Registry) (room_id : String) (player_id : String) :
    Registry × List Msg :=
  match lookupRoom reg room_id with
  | none => (reg, [])
  | some g =>
    let g2 := { g with sockets := g.sockets.erase player_id }
    (setRoom reg room_id g2, notify_remaining_on_disconnect g2)

/-- One externally triggered operation on the service: a connection attempt
(with the outcomes of the two admission calls), an inbound move frame from a
connected participant, or a disconnect. -/
inductive Event where
  | connect (room_id : String) (player_id : String)
      (userResp : Except Unit Nat) (roomsResp : Except Unit (Nat × RoomsBody))
  | move (room_id : String) (player_id : String) (index : Option Int)
  | disconnect (room_id : String) (player_id : String)

/-- Effect of one event on the registry.  A `KeyError` escaping
`handle_move` is caught by the generic exception handler of
`websocket_endpoint`, which only sends a server-error frame and closes the
socket — the raise happens before any mutation, so the registry is kept. -/
def applyEvent (reg : Registry) : Event → Registry
  | Event.connect room_id player_id uR rR =>
    (connectStep reg room_id player_id uR rR).reg
  | Event.move room_id player_id index =>
    match handle_move reg room_id player_id index with
    | Except.ok (reg2, _) => reg2
    | Except.error _ => reg
  | Event.disconnect room_id player_id =>
    (disconnectStep reg room_id player_id).1

/-- Registry states reachable from the empty `games` dict by any sequence of
connections, moves (with their terminal resets) and disconnects. -/
inductive Reachable : Registry → Prop
  | init : Reachable []
  | step (reg : Registry) (e : Event) :
      Reachable reg → Reachable (applyEvent reg e)

/-- The role map the registration code builds from the join order: first
joiner → `"X"`, second → `"O"`, later joiners get no mark. -/
def goodMarks : List String → List (String × String)
  | [] => []
  | [p] => [(p, "X")]
  | p1 :: p2 :: _ => [(p1, "X"), (p2, "O")]

/-- The session invariant maintained by every operation: a 9-cell board over
{empty, X, O}, a duplicate-free roster, the role map determined by the first
two roster entries, and a turn pointer among the first two roster entries. -/
def Inv (g : Game) : Prop :=
  g.board.length = 9 ∧
  (∀ c ∈ g.board, c = some "" ∨ c = some "X" ∨ c = some "O") ∧
  g.players.Nodup ∧
  g.mark_map = goodMarks g.players ∧
  (∀ p, g.turn = some p → p ∈ g.players.take 2)

/-- The registry invariant: every registered session satisfies `Inv`. -/
def RegInv (reg : Registry) : Prop := ∀ e ∈ reg, Inv e.2

/-- The session right after the write `game["board"][index] = mark` of an
accepted move (the intermediate state the outcome check runs on). -/
def movedGame (g : Game) (player_id : String) (i : Int) : Game :=
  { g with board := g.board.set i.toNat (lookupMark g.mark_map player_id) }

/-- Concrete board used to instantiate the outcome-evaluator theorem:
the top row completed by `"X"`. -/
def bWin : List Cell :=
  [some "X", some "X", some "X", some "O", some "O", some "",
   some "", some "", some ""]

/-- Concrete mid-game session: `"p1"` (mark X) to move, top row one cell
from completion. -/
def gameT : Game :=
  { board := [some "X", some "X", some "", some "O", some "O", some "",
      some "", some "", some ""],
    players := ["p1", "p2"], mark_map := [("p1", "X"), ("p2", "O")],
    turn := some "p1", sockets := ["p1", "p2"] }

/-- The session after `"p1"` completes the top row from `gameT`: reset
board, turn back to the first joiner. -/
def gameT2 : Game :=
  { board := List.replicate 9 (some ""), players := ["p1", "p2"],
    mark_map := [("p1", "X"), ("p2", "O")], turn := some "p1",
    sockets := ["p1", "p2"] }

/-- The two terminal snapshots broadcast when `"p1"` completes the top row
from `gameT`. -/
def msgsT : List Msg :=
  [Msg.stateTo "p1" bWin ["p1", "p2"] (some "p1") (some "p1") "Player wins",
   Msg.stateTo "p2" bWin ["p1", "p2"] (some "p1") (some "p1") "Player wins"]

/-- The session after `"p1"` plays index 8 from `gameT` (ongoing): only cell
8 and the turn changed. -/
def gameT4 : Game :=
  { board := [some "X", some "X", some "", some "O", some "O", some "",
      some "", some "", some "X"],
    players := ["p1", "p2"], mark_map := [("p1", "X"), ("p2", "O")],
    turn := some "p2", sockets := ["p1", "p2"] }

/-- The two non-terminal snapshots broadcast after that ongoing move. -/
def msgsT4 : List Msg :=
  [Msg.stateTo "p1" gameT4.board ["p1", "p2"] (some "p2") none "Player moved",
   Msg.stateTo "p2" gameT4.board ["p1", "p2"] (some "p2") none "Player moved"]

/-- Concrete connection events: two legitimate joiners of room `"r"`, then a
third participant admitted after the service reset the room's membership in
the Room Service (which `handle_move` does after every terminal outcome). -/
def eW1 : Event :=
  Event.connect "r" "p1" (Except.ok 200)
    (Except.ok (200, RoomsBody.rooms [("r", ["p1", "p2"])]))

/-- Second joiner of room `"r"`. -/
def eW2 : Event :=
  Event.connect "r" "p2" (Except.ok 200)
    (Except.ok (200, RoomsBody.rooms [("r", ["p1", "p2"])]))

/-- Third participant, a member of room `"r"` per the Room Service's
post-reset state. -/
def eW3 : Event :=
  Event.connect "r" "p3" (Except.ok 200)
    (Except.ok (200, RoomsBody.rooms [("r", ["p3"])]))

/-- Registry after the first connection. -/
def regW1 : Registry := applyEvent [] eW1

/-- The session of room "r" after both legitimate joiners connected. -/
def gW2 : Game :=
  { board := List.replicate 9 (some ""), players := ["p1", "p2"],
    mark_map := [("p1", "X"), ("p2", "O")], turn := some "p1",
    sockets := ["p1", "p2"] }

/-- The session of room "r" after the third participant was appended. -/
def gW3 : Game :=
  { board := List.replicate 9 (some ""), players := ["p1", "p2", "p3"],
    mark_map := [("p1", "X"), ("p2", "O")], turn := some "p1",
    sockets := ["p1", "p2", "p3"] }

/-- Registry after both legitimate joiners connected. -/
def regW2 : Registry := applyEvent regW1 eW2

/-- Registry after the third participant was admitted and appended. -/
def regW3 : Registry := applyEvent regW2 eW3

theorem cond_iff_tripleMatches (board : List Cell) (t : Nat × Nat × Nat) :
    (truthy (cellAt board t.1) ∧ cellAt board t.1 = cellAt board t.2.1 ∧
      cellAt board t.1 = cellAt board t.2.2) ↔ tripleMatches board t := by
  constructor
  · rintro ⟨ht, h12, h13⟩
    match hx : cellAt board t.1 with
    | none => rw [hx] at ht; simp [truthy] at ht
    | some s =>
      rw [hx] at ht h12 h13
      exact ⟨s, by simpa [truthy] using ht, hx, h12.symm, h13.symm⟩
  · rintro ⟨M, hM, h1, h2, h3⟩
    rw [h1, h2, h3]
    exact ⟨by simp [truthy, hM], rfl, rfl⟩

theorem cellAt_none_or_mem (b : List Cell) (i : Nat) :
    cellAt b i = none ∨ cellAt b i ∈ b := by
  unfold cellAt
  rcases Nat.lt_or_ge i b.length with h | h
  · right
    rw [List.getD_eq_getElem b none h]
    exact List.getElem_mem h
  · left
    exact List.getD_eq_default b none h

theorem truthy_cell_shape (b : List Cell)
    (hc : ∀ c ∈ b, c = some "" ∨ c = some "X" ∨ c = some "O") (i : Nat)
    (ht : truthy (cellAt b i) = true) :
    cellAt b i = some "X" ∨ cellAt b i = some "O" := by
  rcases cellAt_none_or_mem b i with h | h
  · rw [h] at ht; simp [truthy] at ht
  · rcases hc _ h with h0 | h0 | h0
    · rw [h0] at ht; simp [truthy] at ht
    · exact Or.inl h0
    · exact Or.inr h0

theorem check_lines_some_iff (b : List Cell) (M : String)
    (hM : M = "X" ∨ M = "O") (ts : List (Nat × Nat × Nat)) :
    check_lines b ts = some M ↔
      ∃ pre t post, ts = pre ++ t :: post ∧ tripleWins b M t ∧
        ∀ t2 ∈ pre, ¬ tripleMatches b t2 := by
  induction ts with
  | nil =>
    simp only [check_lines]
    constructor
    · intro h
      split at h
      · exfalso
        have hdM : "draw" = M := by injection h
        rcases hM with h1 | h1 <;> rw [h1] at hdM <;> simp at hdM
      · exact absurd h (by simp)
    · rintro ⟨pre, t, post, habs, -, -⟩
      exact absurd habs (by simp)
  | cons t rest ih =>
    simp only [check_lines]
    by_cases hcond : truthy (cellAt b t.1) = true ∧
        cellAt b t.1 = cellAt b t.2.1 ∧ cellAt b t.1 = cellAt b t.2.2
    · rw [if_pos hcond]
      have hmatch : tripleMatches b t := (cond_iff_tripleMatches b t).1 hcond
      constructor
      · intro h
        refine ⟨[], t, rest, rfl, ?_, by simp⟩
        obtain ⟨ht, h12, h13⟩ := hcond
        refine ⟨?_, h, by rw [← h12, h], by rw [← h13, h]⟩
        rcases hM with h1 | h1 <;> rw [h1] <;> simp
      · rintro ⟨pre, t2, post, heq, hwins, hpre⟩
        cases pre with
        | nil =>
          have ht2 : t2 = t := by injection heq with h1 h2; exact h1.symm
          rw [← ht2]
          exact hwins.2.1
        | cons p pre2 =>
          have hpt : p = t := by injection heq with h1 h2; exact h1.symm
          exact absurd hmatch (hpt ▸ hpre p (by simp))
    · rw [if_neg hcond]
      rw [ih]
      have hnm : ¬ tripleMatches b t :=
        fun hm => hcond ((cond_iff_tripleMatches b t).2 hm)
      constructor
      · rintro ⟨pre, t2, post, heq, hwins, hpre⟩
        refine ⟨t :: pre, t2, post, by rw [heq]; rfl, hwins, ?_⟩
        intro t3 ht3
        rcases List.mem_cons.1 ht3 with h | h
        · rw [h]; exact hnm
        · exact hpre t3 h
      · rintro ⟨pre, t2, post, heq, hwins, hpre⟩
        cases pre with
        | nil =>
          exfalso
          have ht2 : t2 = t := by injection heq with h1 h2; exact h1.symm
          exact hnm ⟨M, ht2 ▸ hwins⟩
        | cons p pre2 =>
          have hrest : rest = pre2 ++ t2 :: post := by
            injection heq with h1 h2
          exact ⟨pre2, t2, post, hrest, hwins,
            fun t3 ht3 => hpre t3 (by simp [ht3])⟩

theorem check_lines_draw_iff (b : List Cell)
    (hc : ∀ c ∈ b, c = some "" ∨ c = some "X" ∨ c = some "O")
    (ts : List (Nat × Nat × Nat)) :
    check_lines b ts = some "draw" ↔
      (∀ t ∈ ts, ¬ tripleMatches b t) ∧ ∀ c ∈ b, c ≠ some "" := by
  induction ts with
  | nil =>
    simp only [check_lines]
    constructor
    · intro h
      split at h
      · refine ⟨by simp, ?_⟩
        intro c hcb
        have := List.all_eq_true.1 (by assumption) c hcb
        simpa using this
      · exact absurd h (by simp)
    · rintro ⟨-, hfull⟩
      rw [if_pos]
      rw [List.all_eq_true]
      intro c hcb
      simpa using hfull c hcb
  | cons t rest ih =>
    simp only [check_lines]
    by_cases hcond : truthy (cellAt b t.1) = true ∧
        cellAt b t.1 = cellAt b t.2.1 ∧ cellAt b t.1 = cellAt b t.2.2
    · rw [if_pos hcond]
      constructor
      · intro h
        exfalso
        rcases truthy_cell_shape b hc t.1 hcond.1 with h0 | h0 <;>
          rw [h0] at h <;> simp at h
      · rintro ⟨hn, -⟩
        exact absurd ((cond_iff_tripleMatches b t).1 hcond) (hn t (by simp))
    · rw [if_neg hcond]
      rw [ih]
      have hnm : ¬ tripleMatches b t :=
        fun hm => hcond ((cond_iff_tripleMatches b t).2 hm)
      simp [List.forall_mem_cons, hnm]

theorem check_lines_none_iff (b : List Cell) (ts : List (Nat × Nat × Nat)) :
    check_lines b ts = none ↔
      (∀ t ∈ ts, ¬ tripleMatches b t) ∧ ∃ c ∈ b, c = some "" := by
  induction ts with
  | nil =>
    simp only [check_lines]
    constructor
    · intro h
      split at h
      · exact absurd h (by simp)
      · refine ⟨by simp, ?_⟩
        rename_i hall
        rw [List.all_eq_true] at hall
        push_neg at hall
        obtain ⟨c, hcb, hce⟩ := hall
        exact ⟨c, hcb, by simpa using hce⟩
    · rintro ⟨-, c, hcb, hce⟩
      rw [if_neg]
      rw [List.all_eq_true]
      push_neg
      exact ⟨c, hcb, by simp [hce]⟩
  | cons t rest ih =>
    simp only [check_lines]
    by_cases hcond : truthy (cellAt b t.1) = true ∧
        cellAt b t.1 = cellAt b t.2.1 ∧ cellAt b t.1 = cellAt b t.2.2
    · rw [if_pos hcond]
      constructor
      · intro h
        rw [h] at hcond
        simp [truthy] at hcond
      · rintro ⟨hn, -⟩
        exact absurd ((cond_iff_tripleMatches b t).1 hcond) (hn t (by simp))
    · rw [if_neg hcond]
      rw [ih]
      have hnm : ¬ tripleMatches b t :=
        fun hm => hcond ((cond_iff_tripleMatches b t).2 hm)
      simp [List.forall_mem_cons, hnm]

theorem handle_move_body_accepted (g : Game) (pid : String) (i : Int)
    (hp : pid ∈ g.players) (ht : g.turn = some pid) (hi : ¬(i < 0 ∨ i > 8))
    (hcell : cellAt g.board i.toNat = some "") :
    handle_move_body g pid (some i) =
      (let g1 := movedGame g pid i
       let result := check_winner g1.board
       if result = some "X" ∨ result = some "O" then
         Except.ok (reset_game_state g1, broadcast_state g1
           (g1.mark_map.foldl
             (fun acc e => if some e.2 = result then some e.1 else acc) none)
           "Player wins")
       else if result = some "draw" then
         Except.ok (reset_game_state g1, broadcast_state g1 (some "draw")
           "Draw!")
       else
         Except.ok
           ({ g1 with turn := (g1.players.filter (fun p => p ≠ pid)).head? },
            broadcast_state
              { g1 with turn := (g1.players.filter (fun p => p ≠ pid)).head? }
              none "Player moved")) := by
  unfold handle_move_body movedGame
  rw [if_neg (not_not_intro hp), if_neg (not_not_intro ht)]
  dsimp only
  rw [if_neg hi, if_neg (not_not_intro hcell)]

theorem handle_move_body_terminal (g : Game) (pid : String) (i : Int)
    (hp : pid ∈ g.players) (ht : g.turn = some pid) (hi : ¬(i < 0 ∨ i > 8))
    (hcell : cellAt g.board i.toNat = some "")
    (hres : check_winner (movedGame g pid i).board = some "X" ∨
      check_winner (movedGame g pid i).board = some "O" ∨
      check_winner (movedGame g pid i).board = some "draw") :
    ∃ msgs, handle_move_body g pid (some i) =
      Except.ok (reset_game_state (movedGame g pid i), msgs) := by
  rw [handle_move_body_accepted g pid i hp ht hi hcell]
  dsimp only
  rcases hres with h | h | h
  · rw [if_pos (Or.inl h)]
    exact ⟨_, rfl⟩
  · rw [if_pos (Or.inr h)]
    exact ⟨_, rfl⟩
  · rw [if_neg (by rw [h]; rintro (habs | habs) <;> simp at habs), if_pos h]
    exact ⟨_, rfl⟩

theorem handle_move_body_ongoing (g : Game) (pid : String) (i : Int)
    (hp : pid ∈ g.players) (ht : g.turn = some pid) (hi : ¬(i < 0 ∨ i > 8))
    (hcell : cellAt g.board i.toNat = some "")
    (hong : check_winner (movedGame g pid i).board = none) :
    handle_move_body g pid (some i) = Except.ok
      ({ movedGame g pid i with
          turn := (g.players.filter (fun p => p ≠ pid)).head? },
        broadcast_state
          { movedGame g pid i with
              turn := (g.players.filter (fun p => p ≠ pid)).head? }
          none "Player moved") := by
  rw [handle_move_body_accepted g pid i hp ht hi hcell]
  dsimp only
  rw [if_neg (by rw [hong]; rintro (habs | habs) <;> simp at habs),
    if_neg (by rw [hong]; simp)]
  rfl

/-- C10: calling `handle_move` with a room identifier that has no session in
the registry returns immediately: no session is created, the registry is
unchanged, and no frame of any kind is sent. -/
theorem handle_move_unknown_room (reg : Registry) (room_id : String)
    (player_id : String) (index : Option Int)
    (h : lookupRoom reg room_id = none) :
    handle_move reg room_id player_id index = Except.ok (reg, []) := by
  unfold handle_move
  rw [h]

/-- Witness for C10 at a concrete input: a move against an empty registry. -/
theorem handle_move_unknown_room_witness :
    handle_move [] "r" "p1" (some 0) = Except.ok ([], []) :=
  handle_move_unknown_room [] "r" "p1" (some 0) rfl

/-- C7: a connection whose identity lookup reports the participant unknown,
or whose membership lookup reports them not a member, or where either
external call raised a transport error (always treated as failure), gets
exactly one error frame, is closed, and the registry — hence every session —
is left unchanged. -/
theorem admission_failure_rejected (reg : Registry) (room_id : String)
    (player_id : String) (userResp : Except Unit Nat)
    (roomsResp : Except Unit (Nat × RoomsBody))
    (h : user_exists player_id userResp = false ∨
      user_in_room room_id player_id roomsResp = false ∨
      userResp = Except.error () ∨ roomsResp = Except.error ()) :
    ∃ text, connectStep reg room_id player_id userResp roomsResp =
      ⟨reg, [Msg.errorTo player_id text], true⟩ := by
  have h2 : user_exists player_id userResp = false ∨
      user_in_room room_id player_id roomsResp = false := by
    rcases h with h | h | h | h
    · exact Or.inl h
    · exact Or.inr h
    · exact Or.inl (by rw [h]; rfl)
    · exact Or.inr (by rw [h]; rfl)
  unfold connectStep
  rcases h2 with h2 | h2
  · rw [if_pos h2]
    exact ⟨_, rfl⟩
  · by_cases hu : user_exists player_id userResp = false
    · rw [if_pos hu]
      exact ⟨_, rfl⟩
    · rw [if_neg hu, if_pos h2]
      exact ⟨_, rfl⟩

/-- Witness for C7 at a concrete input: a transport error on the identity
lookup rejects the connection and keeps the registry. -/
theorem admission_failure_rejected_witness :
    ∃ text, connectStep regW2 "r" "p9" (Except.error ())
        (Except.ok (200, RoomsBody.rooms [("r", ["p9"])])) =
      ⟨regW2, [Msg.errorTo "p9" text], true⟩ :=
  admission_failure_rejected regW2 "r" "p9" (Except.error ())
    (Except.ok (200, RoomsBody.rooms [("r", ["p9"])]))
    (Or.inr (Or.inr (Or.inl rfl)))

/-- C8: a connection that passes admission for a room whose session already
registers a live channel for that participant id receives one error frame
and is closed, and the registry — in particular that session's roster, role
map, channels, grid and turn — is unchanged. -/
theorem duplicate_connection_rejected (reg : Registry) (room_id : String)
    (player_id : String) (userResp : Except Unit Nat)
    (roomsResp : Except Unit (Nat × RoomsBody)) (g : Game)
    (hu : user_exists player_id userResp = true)
    (hr : user_in_room room_id player_id roomsResp = true)
    (hg : lookupRoom reg room_id = some g) (hdup : player_id ∈ g.sockets) :
    connectStep reg room_id player_id userResp roomsResp =
      ⟨reg, [Msg.errorTo player_id "Player already connected"], true⟩ := by
  unfold connectStep
  rw [if_neg (by rw [hu]; simp), if_neg (by rw [hr]; simp), hg]
  dsimp only
  rw [if_pos hdup]

/-- Witness for C8 at a concrete input: the first joiner reconnecting while
its first connection is still live. -/
theorem duplicate_connection_rejected_witness :
    connectStep regW2 "r" "p1" (Except.ok 200)
        (Except.ok (200, RoomsBody.rooms [("r", ["p1", "p2"])])) =
      ⟨regW2, [Msg.errorTo "p1" "Player already connected"], true⟩ :=
  duplicate_connection_rejected regW2 "r" "p1" (Except.ok 200)
    (Except.ok (200, RoomsBody.rooms [("r", ["p1", "p2"])]))
    { board := List.replicate 9 (some ""), players := ["p1", "p2"],
      mark_map := [("p1", "X"), ("p2", "O")], turn := some "p1",
      sockets := ["p1", "p2"] }
    rfl rfl (by decide) (by decide)

/-- C2: after an accepted move whose resulting grid the outcome evaluator
judges a win or a draw, the session holds an all-empty grid and the turn is
back at the first roster entry (none for an empty roster), while the roster
and the role assignments are exactly as before the move. -/
theorem move_terminal_resets_session (g : Game) (pid : String) (i : Int)
    (g2 : Game) (msgs : List Msg)
    (hp : pid ∈ g.players) (ht : g.turn = some pid) (hi : ¬(i < 0 ∨ i > 8))
    (hcell : cellAt g.board i.toNat = some "")
    (hres : check_winner (movedGame g pid i).board = some "X" ∨
      check_winner (movedGame g pid i).board = some "O" ∨
      check_winner (movedGame g pid i).board = some "draw")
    (hrun : handle_move_body g pid (some i) = Except.ok (g2, msgs)) :
    g2.board = List.replicate 9 (some "") ∧ g2.turn = g.players.head? ∧
      g2.players = g.players ∧ g2.mark_map = g.mark_map := by
  obtain ⟨msgs2, heq⟩ := handle_move_body_terminal g pid i hp ht hi hcell hres
  rw [hrun] at heq
  injection heq with h
  injection h with h1 h2
  rw [h1]
  exact ⟨rfl, rfl, rfl, rfl⟩

/-- Witness for C2 at a concrete input: `"p1"` completes the top row from
`gameT`; the session comes back reset with `"p1"` to move and roster/roles
intact. -/
theorem move_terminal_resets_session_witness :
    gameT2.board = List.replicate 9 (some "") ∧
      gameT2.turn = gameT.players.head? ∧
      gameT2.players = gameT.players ∧ gameT2.mark_map = gameT.mark_map :=
  move_terminal_resets_session gameT "p1" 2 gameT2 msgsT (by decide)
    (by decide) (by decide) (by decide) (Or.inl (by decide)) (by decide)

/-- C3: a move request from a participant with a registered channel that
violates a rule — not in the roster, not their turn, index not an integer in
[0,8], or cell already occupied — produces exactly one error frame, sent to
the requester only, with no broadcast and the session state unchanged. -/
theorem move_violation_rejected (g : Game) (pid : String) (index : Option Int)
    (hsock : pid ∈ g.sockets)
    (hviol : pid ∉ g.players ∨ g.turn ≠ some pid ∨ index = none ∨
      (∃ i, index = some i ∧ (i < 0 ∨ i > 8)) ∨
      (∃ i, index = some i ∧ cellAt g.board i.toNat ≠ some "")) :
    ∃ text, handle_move_body g pid index =
      Except.ok (g, [Msg.errorTo pid text]) := by
  unfold handle_move_body
  by_cases hp : pid ∈ g.players
  · rw [if_neg (not_not_intro hp)]
    by_cases ht : g.turn = some pid
    · rw [if_neg (not_not_intro ht)]
      cases index with
      | none =>
        dsimp only
        rw [if_pos hsock]
        exact ⟨_, rfl⟩
      | some i =>
        dsimp only
        by_cases hi : i < 0 ∨ i > 8
        · rw [if_pos hi, if_pos hsock]
          exact ⟨_, rfl⟩
        · rw [if_neg hi]
          by_cases hcell : cellAt g.board i.toNat ≠ some ""
          · rw [if_pos hcell, if_pos hsock]
            exact ⟨_, rfl⟩
          · exfalso
            rcases hviol with h | h | h | ⟨j, hj, hrange⟩ | ⟨j, hj, hocc⟩
            · exact h hp
            · exact h ht
            · exact Option.some_ne_none i h
            · injection hj with hj2
              exact hi (hj2 ▸ hrange)
            · injection hj with hj2
              exact hcell (hj2 ▸ hocc)
    · rw [if_pos ht, if_pos hsock]
      exact ⟨_, rfl⟩
  · rw [if_pos hp, if_pos hsock]
    exact ⟨_, rfl⟩

/-- Witness for C3 at a concrete input: `"p2"` tries to move while it is
`"p1"`'s turn and is rejected with one targeted error frame. -/
theorem move_violation_rejected_witness :
    ∃ text, handle_move_body gameT "p2" (some 0) =
      Except.ok (gameT, [Msg.errorTo "p2" text]) :=
  move_violation_rejected gameT "p2" (some 0) (by decide)
    (Or.inr (Or.inl (by decide)))

/-- C4: in a session whose roster is exactly two distinct identifiers, an
accepted move with an ongoing outcome hands the turn to the roster member
other than the mover — so successive accepted moves within a round strictly
alternate between the two roster identifiers. -/
theorem move_ongoing_turn_alternates (g : Game) (pid p1 p2 : String) (i : Int)
    (hps : g.players = [p1, p2]) (hne : p1 ≠ p2)
    (hpid : pid = p1 ∨ pid = p2) (ht : g.turn = some pid)
    (hi : ¬(i < 0 ∨ i > 8)) (hcell : cellAt g.board i.toNat = some "")
    (hong : check_winner (movedGame g pid i).board = none) :
    ∀ g2 msgs, handle_move_body g pid (some i) = Except.ok (g2, msgs) →
      g2.turn = some (if pid = p1 then p2 else p1) ∧
        (if pid = p1 then p2 else p1) ≠ pid := by
  intro g2 msgs hrun
  have hp : pid ∈ g.players := by
    rw [hps]
    rcases hpid with h | h <;> simp [h]
  have heq := handle_move_body_ongoing g pid i hp ht hi hcell hong
  rw [hrun] at heq
  injection heq with h
  injection h with h1 h2
  rw [h1]
  rcases hpid with h | h
  · subst h
    rw [if_pos rfl]
    constructor
    · show ((g.players.filter (fun p => p ≠ pid)).head? = some p2)
      rw [hps]
      simp [List.filter_cons, hne.symm]
    · exact hne.symm
  · subst h
    rw [if_neg (fun habs => hne habs.symm)]
    constructor
    · show ((g.players.filter (fun p => p ≠ pid)).head? = some p1)
      rw [hps]
      simp [List.filter_cons, hne]
    · exact hne

/-- Witness for C4 at a concrete input: `"p1"` plays index 8 from `gameT`
(no line completed) and the turn passes to `"p2"`. -/
theorem move_ongoing_turn_alternates_witness :
    gameT4.turn = some (if "p1" = "p1" then "p2" else "p1") ∧
      (if "p1" = "p1" then "p2" else "p1") ≠ "p1" :=
  move_ongoing_turn_alternates gameT "p1" "p1" "p2" 8 rfl (by decide)
    (Or.inl rfl) rfl (by decide) (by decide) (by decide) gameT4 msgsT4
    (by decide)

/-- C9: an accepted move with an ongoing outcome changes exactly the chosen
cell (to the mover's mark) and the turn pointer; every other grid cell and
the roster, role map and channel map are untouched. -/
theorem move_ongoing_frame_effect (g : Game) (pid : String) (i : Int)
    (hlen : g.board.length = 9)
    (hp : pid ∈ g.players) (ht : g.turn = some pid)
    (hi : ¬(i < 0 ∨ i > 8)) (hcell : cellAt g.board i.toNat = some "")
    (hong : check_winner (movedGame g pid i).board = none) :
    ∀ g2 msgs, handle_move_body g pid (some i) = Except.ok (g2, msgs) →
      g2.board[i.toNat]? = some (lookupMark g.mark_map pid) ∧
      (∀ j, j ≠ i.toNat → g2.board[j]? = g.board[j]?) ∧
      g2.turn = (g.players.filter (fun p => p ≠ pid)).head? ∧
      g2.players = g.players ∧ g2.mark_map = g.mark_map ∧
      g2.sockets = g.sockets := by
  intro g2 msgs hrun
  have heq := handle_move_body_ongoing g pid i hp ht hi hcell hong
  rw [hrun] at heq
  injection heq with h
  injection h with h1 h2
  rw [h1]
  have hlt : i.toNat < g.board.length := by
    rw [hlen]
    omega
  refine ⟨?_, ?_, rfl, rfl, rfl, rfl⟩
  · exact List.getElem?_set_self hlt
  · intro j hj
    exact List.getElem?_set_ne (fun habs => hj habs.symm)

/-- Witness for C9 at a concrete input: the ongoing move `"p1"` at index 8
from `gameT` sets only cell 8 and the turn. -/
theorem move_ongoing_frame_effect_witness :
    gameT4.board[(8 : Int).toNat]? =
      some (lookupMark gameT.mark_map "p1") ∧
    (∀ j, j ≠ (8 : Int).toNat → gameT4.board[j]? = gameT.board[j]?) ∧
    gameT4.turn = (gameT.players.filter (fun p => p ≠ "p1")).head? ∧
    gameT4.players = gameT.players ∧ gameT4.mark_map = gameT.mark_map ∧
    gameT4.sockets = gameT.sockets :=
  move_ongoing_frame_effect gameT "p1" 8 rfl (by decide) rfl (by decide)
    (by decide) (by decide) gameT4 msgsT4 (by decide)

/-- C1: over 9-cell grids with cells in {empty, X, O}, `check_winner`
returns the mark M exactly when some triple of the 8 fixed lines (rows,
columns, diagonals, in the source's order) holds three equal non-empty cells
of M and every earlier triple matches no mark (first match decides); it
returns the draw marker exactly when no triple matches and no cell is
empty; and it returns the ongoing result `none` exactly when no triple
matches and some cell is empty. -/
theorem check_winner_correct (b : List Cell) (_hlen : b.length = 9)
    (hc : ∀ c ∈ b, c = some "" ∨ c = some "X" ∨ c = some "O") :
    (∀ M, (M = "X" ∨ M = "O") →
      (check_winner b = some M ↔
        ∃ pre t post, lines = pre ++ t :: post ∧ tripleWins b M t ∧
          ∀ t2 ∈ pre, ¬ tripleMatches b t2)) ∧
    (check_winner b = some "draw" ↔
      (∀ t ∈ lines, ¬ tripleMatches b t) ∧ ∀ c ∈ b, c ≠ some "") ∧
    (check_winner b = none ↔
      (∀ t ∈ lines, ¬ tripleMatches b t) ∧ ∃ c ∈ b, c = some "") :=
  ⟨fun M hM => check_lines_some_iff b M hM lines,
   check_lines_draw_iff b hc lines, check_lines_none_iff b lines⟩

/-- Witness for C1 at a concrete input: the board with the top row completed
by X satisfies the win characterization. -/
theorem check_winner_correct_witness :
    check_winner bWin = some "X" ↔
      ∃ pre t post, lines = pre ++ t :: post ∧ tripleWins bWin "X" t ∧
        ∀ t2 ∈ pre, ¬ tripleMatches bWin t2 :=
  (check_winner_correct bWin rfl (by decide)).1 "X" (Or.inl rfl)

theorem lookupMark_goodMarks_none (ps : List String) (pid : String)
    (h : pid ∉ ps) : lookupMark (goodMarks ps) pid = none := by
  match ps with
  | [] => rfl
  | [p] =>
    have hne : ¬(p = pid) := fun he => h (by simp [he])
    simp [goodMarks, lookupMark, List.find?, hne]
  | p1 :: p2 :: rest =>
    have hne1 : ¬(p1 = pid) := fun he => h (by simp [he])
    have hne2 : ¬(p2 = pid) := fun he => h (by simp [he])
    simp [goodMarks, lookupMark, List.find?, hne1, hne2]

theorem lookupMark_goodMarks_take2 (ps : List String) (pid : String)
    (hnd : ps.Nodup) (h : pid ∈ ps.take 2) :
    lookupMark (goodMarks ps) pid = some "X" ∨
      lookupMark (goodMarks ps) pid = some "O" := by
  match ps with
  | [] => simp at h
  | [p] =>
    have hpe : pid = p := by simpa using h
    left
    simp [goodMarks, lookupMark, List.find?, hpe]
  | p1 :: p2 :: rest =>
    have h12 : p1 ≠ p2 := by
      intro he
      exact (List.nodup_cons.1 hnd).1 (by simp [he])
    have hpe : pid = p1 ∨ pid = p2 := by simpa [List.take] using h
    rcases hpe with he | he
    · left
      simp [goodMarks, lookupMark, List.find?, he]
    · right
      subst he
      simp [goodMarks, lookupMark, List.find?, fun hab => h12 hab]

theorem mem_take2_append (ps l2 : List String) (p : String)
    (h : p ∈ ps.take 2) : p ∈ (ps ++ l2).take 2 := by
  rw [List.take_append_eq_append_take]
  exact List.mem_append_left _ h

theorem head?_mem_take2 (ps : List String) (q : String)
    (h : ps.head? = some q) : q ∈ ps.take 2 := by
  match ps with
  | [] => simp at h
  | p :: rest =>
    have : p = q := by simpa using h
    simp [List.take, this]

theorem filter_ne_head_take2 (ps : List String) (pid q : String)
    (hnd : ps.Nodup)
    (h : (ps.filter (fun p => p ≠ pid)).head? = some q) :
    q ∈ ps.take 2 := by
  match ps with
  | [] => simp at h
  | p1 :: rest =>
    by_cases h1 : p1 = pid
    · rw [List.filter_cons_of_neg (by simp [h1])] at h
      match rest with
      | [] => simp at h
      | p2 :: rest2 =>
        by_cases h2 : p2 = pid
        · exfalso
          have : p1 ≠ p2 := fun he => (List.nodup_cons.1 hnd).1 (by simp [he])
          exact this (h1.trans h2.symm)
        · rw [List.filter_cons_of_pos (by simp [h2])] at h
          have : p2 = q := by simpa using h
          simp [List.take, this]
    · rw [List.filter_cons_of_pos (by simp [h1])] at h
      have : p1 = q := by simpa using h
      simp [List.take, this]

theorem inv_freshGame : Inv freshGame := by
  refine ⟨rfl, ?_, by simp [freshGame], rfl, ?_⟩
  · intro c hc
    left
    exact List.eq_of_mem_replicate hc
  · intro p hp
    exact absurd hp (by simp [freshGame])

theorem inv_register_assign (g : Game) (pid : String) (h : Inv g) :
    Inv (assignMark (registerSocket (registerPlayer g pid) pid) pid) := by
  obtain ⟨hb, hcells, hnd, hmm, hturn⟩ := h
  by_cases hp : pid ∈ g.players
  · rw [registerPlayer, if_pos hp]
    unfold registerSocket assignMark
    by_cases hsome : (lookupMark g.mark_map pid).isSome
    · rw [if_pos hsome]
      exact ⟨hb, hcells, hnd, hmm, hturn⟩
    · rw [if_neg hsome]
      have hlen2 : g.mark_map.length = 2 := by
        match hps : g.players with
        | [] => rw [hps] at hp; cases hp
        | [p] =>
          exfalso
          have hpe : pid = p := by rw [hps] at hp; simpa using hp
          rw [hmm, hps, hpe] at hsome
          exact hsome (by simp [goodMarks, lookupMark, List.find?])
        | p1 :: p2 :: rest => rw [hmm, hps]; rfl
      rw [hlen2]
      norm_num
      exact ⟨hb, hcells, hnd, hmm, hturn⟩
  · rw [registerPlayer, if_neg hp]
    have hnone : lookupMark g.mark_map pid = none := by
      rw [hmm]
      exact lookupMark_goodMarks_none g.players pid hp
    unfold registerSocket assignMark
    rw [hnone]
    simp only [Option.isSome_none, Bool.false_eq_true, if_false]
    match hps : g.players with
    | [] =>
      have hmm0 : g.mark_map = [] := by rw [hmm, hps]; rfl
      rw [hmm0]
      norm_num
      refine ⟨hb, hcells, by simp, rfl, ?_⟩
      intro p hpt
      have := hturn p hpt
      rw [hps] at this
      simp at this
    | [p] =>
      have hmm1 : g.mark_map = [(p, "X")] := by rw [hmm, hps]; rfl
      rw [hmm1]
      norm_num
      refine ⟨hb, hcells, ?_, rfl, ?_⟩
      · have hne : p ≠ pid := fun he => hp (by rw [hps]; simp [he])
        simp [hne]
      · intro q hqt
        have hq := hturn q hqt
        rw [hps] at hq
        have hq2 : q = p := by simpa using hq
        simp [List.take, hq2]
    | p1 :: p2 :: rest =>
      have hlen2 : g.mark_map.length = 2 := by rw [hmm, hps]; rfl
      rw [hlen2]
      norm_num
      refine ⟨hb, hcells, ?_, ?_, ?_⟩
      · rw [show p1 :: p2 :: (rest ++ [pid]) = (p1 :: p2 :: rest) ++ [pid]
          from rfl, List.nodup_append]
        refine ⟨hps ▸ hnd, by simp, ?_⟩
        intro a ha hb2
        have ha2 : a = pid := by simpa using hb2
        exact hp (by rw [hps, ← ha2]; exact ha)
      · rw [hmm, hps]
        rfl
      · intro q hqt
        have hq := hturn q hqt
        rw [hps] at hq
        exact mem_take2_append (p1 :: p2 :: rest) [pid] q hq

theorem inv_startIfReady (g : Game) (pid : String) (h : Inv g) :
    Inv (startIfReady g pid).1 := by
  obtain ⟨hb, hcells, hnd, hmm, hturn⟩ := h
  unfold startIfReady
  by_cases hcond : g.players.length = 2 ∧ g.sockets.length = 2
  · rw [if_pos hcond]
    dsimp only
    obtain ⟨q1, q2, hps⟩ := List.length_eq_two.1 hcond.1
    have h12 : q1 ≠ q2 := by
      rw [hps] at hnd
      exact fun he => (List.nodup_cons.1 hnd).1 (by simp [he])
    have hp1 : g.players.getD 0 "" = q1 := by rw [hps]; rfl
    have hp2 : g.players.getD 1 "" = q2 := by rw [hps]; rfl
    have hmm2 : g.mark_map = [(q1, "X"), (q2, "O")] := by rw [hmm, hps]; rfl
    refine ⟨hb, hcells, hnd, ?_, ?_⟩
    · show setdefaultMark (setdefaultMark g.mark_map (g.players.getD 0 "")
          "X") (g.players.getD 1 "") "O" = goodMarks g.players
      rw [hp1, hp2, hmm2]
      have hs1 : setdefaultMark [(q1, "X"), (q2, "O")] q1 "X" =
          [(q1, "X"), (q2, "O")] := by
        rw [setdefaultMark, if_pos]
        simp [lookupMark, List.find?]
      rw [hs1, setdefaultMark, if_pos]
      · rw [hps]
        rfl
      · simp [lookupMark, List.find?, fun hab => h12 hab]
    · intro p hpt
      have hqp : g.players.getD 0 "" = p := by
        have : some (g.players.getD 0 "") = some p := hpt
        exact Option.some.inj this
      rw [hp1] at hqp
      rw [hps, ← hqp]
      simp [List.take]
  · rw [if_neg hcond]
    exact ⟨hb, hcells, hnd, hmm, hturn⟩

theorem inv_handle_move_body (g : Game) (pid : String) (idx : Option Int)
    (g2 : Game) (msgs : List Msg) (hInv : Inv g)
    (hrun : handle_move_body g pid idx = Except.ok (g2, msgs)) : Inv g2 := by
  obtain ⟨hb, hcells, hnd, hmm, hturn⟩ := hInv
  by_cases hp : pid ∈ g.players
  case neg =>
    unfold handle_move_body at hrun
    rw [if_pos hp] at hrun
    injection hrun with h2
    injection h2 with h2a h2b
    exact h2a ▸ ⟨hb, hcells, hnd, hmm, hturn⟩
  by_cases ht : g.turn = some pid
  case neg =>
    unfold handle_move_body at hrun
    rw [if_neg (not_not_intro hp), if_pos ht] at hrun
    injection hrun with h2
    injection h2 with h2a h2b
    exact h2a ▸ ⟨hb, hcells, hnd, hmm, hturn⟩
  cases idx with
  | none =>
    unfold handle_move_body at hrun
    rw [if_neg (not_not_intro hp), if_neg (not_not_intro ht)] at hrun
    dsimp only at hrun
    by_cases hs : pid ∈ g.sockets
    · rw [if_pos hs] at hrun
      injection hrun with h2
      injection h2 with h2a h2b
      exact h2a ▸ ⟨hb, hcells, hnd, hmm, hturn⟩
    · rw [if_neg hs] at hrun
      exact absurd hrun (by simp)
  | some i =>
    by_cases hi : i < 0 ∨ i > 8
    · unfold handle_move_body at hrun
      rw [if_neg (not_not_intro hp), if_neg (not_not_intro ht)] at hrun
      dsimp only at hrun
      rw [if_pos hi] at hrun
      by_cases hs : pid ∈ g.sockets
      · rw [if_pos hs] at hrun
        injection hrun with h2
        injection h2 with h2a h2b
        exact h2a ▸ ⟨hb, hcells, hnd, hmm, hturn⟩
      · rw [if_neg hs] at hrun
        exact absurd hrun (by simp)
    · by_cases hcell : cellAt g.board i.toNat = some ""
      case neg =>
        unfold handle_move_body at hrun
        rw [if_neg (not_not_intro hp), if_neg (not_not_intro ht)] at hrun
        dsimp only at hrun
        rw [if_neg hi, if_pos hcell] at hrun
        by_cases hs : pid ∈ g.sockets
        · rw [if_pos hs] at hrun
          injection hrun with h2
          injection h2 with h2a h2b
          exact h2a ▸ ⟨hb, hcells, hnd, hmm, hturn⟩
        · rw [if_neg hs] at hrun
          exact absurd hrun (by simp)
      case pos =>
        rw [handle_move_body_accepted g pid i hp ht hi hcell] at hrun
        dsimp only at hrun
        have hmark : lookupMark g.mark_map pid = some "X" ∨
            lookupMark g.mark_map pid = some "O" := by
          rw [hmm]
          exact lookupMark_goodMarks_take2 g.players pid hnd (hturn pid ht)
        have hcells2 : ∀ c ∈ (movedGame g pid i).board,
            c = some "" ∨ c = some "X" ∨ c = some "O" := by
          intro c hc
          rcases List.mem_or_eq_of_mem_set (by simpa [movedGame] using hc)
            with h | h
          · exact hcells c h
          · rcases hmark with hm | hm <;> rw [h, hm] <;> simp
        by_cases hw : check_winner (movedGame g pid i).board = some "X" ∨
            check_winner (movedGame g pid i).board = some "O"
        · rw [if_pos hw] at hrun
          injection hrun with h2
          injection h2 with h2a h2b
          rw [← h2a]
          refine ⟨by simp [reset_game_state], ?_, hnd, hmm, ?_⟩
          · intro c hc
            simp only [reset_game_state] at hc
            exact Or.inl (List.eq_of_mem_replicate hc)
          · intro p hpt
            have : g.players.head? = some p := by
              simpa [reset_game_state, movedGame] using hpt
            exact head?_mem_take2 g.players p this
        · rw [if_neg hw] at hrun
          by_cases hd : check_winner (movedGame g pid i).board = some "draw"
          · rw [if_pos hd] at hrun
            injection hrun with h2
            injection h2 with h2a h2b
            rw [← h2a]
            refine ⟨by simp [reset_game_state], ?_, hnd, hmm, ?_⟩
            · intro c hc
              simp only [reset_game_state] at hc
              exact Or.inl (List.eq_of_mem_replicate hc)
            · intro p hpt
              have : g.players.head? = some p := by
                simpa [reset_game_state, movedGame] using hpt
              exact head?_mem_take2 g.players p this
          · rw [if_neg hd] at hrun
            injection hrun with h2
            injection h2 with h2a h2b
            rw [← h2a]
            refine ⟨by simp [movedGame, hb], hcells2, hnd, hmm, ?_⟩
            intro p hpt
            exact filter_ne_head_take2 g.players pid p hnd
              (by simpa [movedGame] using hpt)

theorem mem_setRoom (reg : Registry) (room : String) (g : Game)
    (e : String × Game) (h : e ∈ setRoom reg room g) :
    e ∈ reg ∨ e = (room, g) := by
  induction reg with
  | nil =>
    right
    simpa [setRoom] using h
  | cons hd tl ih =>
    unfold setRoom at h
    by_cases hh : hd.1 = room
    · rw [if_pos hh] at h
      rcases List.mem_cons.1 h with h2 | h2
      · right; exact h2
      · left; exact List.mem_cons_of_mem hd h2
    · rw [if_neg hh] at h
      rcases List.mem_cons.1 h with h2 | h2
      · left; simp [h2]
      · rcases ih h2 with h3 | h3
        · left; exact List.mem_cons_of_mem hd h3
        · right; exact h3

theorem inv_of_lookupRoom (reg : Registry) (room : String) (g : Game)
    (hreg : RegInv reg) (h : lookupRoom reg room = some g) : Inv g := by
  unfold lookupRoom at h
  cases hf : reg.find? (fun e => e.1 = room) with
  | none => rw [hf] at h; simp at h
  | some e =>
    rw [hf] at h
    simp at h
    exact h ▸ hreg e (List.mem_of_find?_eq_some hf)

theorem regInv_setRoom (reg : Registry) (room : String) (g : Game)
    (hreg : RegInv reg) (hg : Inv g) : RegInv (setRoom reg room g) := by
  intro e he
  rcases mem_setRoom reg room g e he with h | h
  · exact hreg e h
  · rw [h]
    exact hg

theorem regInv_append_fresh (reg : Registry) (room : String)
    (hreg : RegInv reg) : RegInv (reg ++ [(room, freshGame)]) := by
  intro e he
  rcases List.mem_append.1 he with h | h
  · exact hreg e h
  · have : e = (room, freshGame) := by simpa using h
    rw [this]
    exact inv_freshGame

theorem regInv_applyEvent (reg : Registry) (e : Event) (h : RegInv reg) :
    RegInv (applyEvent reg e) := by
  cases e with
  | connect room pid uR rR =>
    unfold applyEvent connectStep
    dsimp only
    by_cases hu : user_exists pid uR = false
    · rw [if_pos hu]
      exact h
    · rw [if_neg hu]
      by_cases hr : user_in_room room pid rR = false
      · rw [if_pos hr]
        exact h
      · rw [if_neg hr]
        cases hl : lookupRoom reg room with
        | some g0 =>
          dsimp only
          have hg0 : Inv g0 := inv_of_lookupRoom reg room g0 h hl
          by_cases hdup : pid ∈ g0.sockets
          · rw [if_pos hdup]
            exact h
          · rw [if_neg hdup]
            cases hsr : startIfReady (assignMark (registerSocket
                (registerPlayer g0 pid) pid) pid) pid with
            | mk g4 msgs4 =>
              dsimp only
              refine regInv_setRoom reg room g4 h ?_
              have := inv_startIfReady (assignMark (registerSocket
                (registerPlayer g0 pid) pid) pid) pid
                (inv_register_assign g0 pid hg0)
              rw [hsr] at this
              exact this
        | none =>
          dsimp only
          by_cases hdup : pid ∈ freshGame.sockets
          · rw [if_pos hdup]
            exact regInv_append_fresh reg room h
          · rw [if_neg hdup]
            cases hsr : startIfReady (assignMark (registerSocket
                (registerPlayer freshGame pid) pid) pid) pid with
            | mk g4 msgs4 =>
              dsimp only
              refine regInv_setRoom _ room g4 (regInv_append_fresh reg room h)
                ?_
              have := inv_startIfReady (assignMark (registerSocket
                (registerPlayer freshGame pid) pid) pid) pid
                (inv_register_assign freshGame pid inv_freshGame)
              rw [hsr] at this
              exact this
  | move room pid idx =>
    cases hm : handle_move reg room pid idx with
    | error err =>
      unfold applyEvent
      dsimp only
      rw [hm]
      exact h
    | ok p =>
      obtain ⟨reg2, msgs⟩ := p
      unfold applyEvent
      dsimp only
      rw [hm]
      dsimp only
      unfold handle_move at hm
      split at hm
      · injection hm with h2
        injection h2 with h2a h2b
        exact h2a ▸ h
      · rename_i g hl
        split at hm
        · rename_i g2 msgs2 hb
          injection hm with h2
          injection h2 with h2a h2b
          rw [← h2a]
          exact regInv_setRoom reg room g2 h
            (inv_handle_move_body g pid idx g2 msgs2
              (inv_of_lookupRoom reg room g h hl) hb)
        · exact absurd hm (by simp)
  | disconnect room pid =>
    unfold applyEvent disconnectStep
    dsimp only
    cases hl : lookupRoom reg room with
    | none =>
      dsimp only
      exact h
    | some g =>
      dsimp only
      obtain ⟨hb, hcells, hnd, hmm, hturn⟩ := inv_of_lookupRoom reg room g h hl
      exact regInv_setRoom reg room _ h ⟨hb, hcells, hnd, hmm, hturn⟩

theorem reachable_regInv (reg : Registry) (h : Reachable reg) : RegInv reg := by
  induction h with
  | init => intro e he; cases he
  | step reg2 e _ ih => exact regInv_applyEvent reg2 e ih

/-- C5: in every session state reachable from the empty registry by any
sequence of connections, moves (with their terminal resets) and disconnects,
the grid has length exactly 9 and every cell holds exactly one of the three
values empty, markA ("X") or markB ("O"). -/
theorem reachable_board_wellformed (reg : Registry) (h : Reachable reg) :
    ∀ e ∈ reg, e.2.board.length = 9 ∧
      ∀ c ∈ e.2.board, c = some "" ∨ c = some "X" ∨ c = some "O" := by
  intro e he
  obtain ⟨hb, hcells, -, -, -⟩ := reachable_regInv reg h e he
  exact ⟨hb, hcells⟩

/-- Witness for C5 at a concrete input: the reachable registry after both
players of room "r" connected. -/
theorem reachable_board_wellformed_witness :
    gW2.board.length = 9 ∧
      ∀ c ∈ gW2.board, c = some "" ∨ c = some "X" ∨ c = some "O" :=
  reachable_board_wellformed regW2
    (Reachable.step regW1 eW2 (Reachable.step [] eW1 Reachable.init))
    ("r", gW2) (by decide)

/-- Counterexample to C6 as stated: a reachable registry whose session for
room "r" has a roster of three participant identifiers — a third admitted
connection is appended without any length check, so the roster is not
bounded by 2.  (The whole system makes this reachable: after every terminal
outcome `handle_move` posts `/rooms/{room_id}/reset` to the Room Service,
emptying the room's membership, after which a fresh participant can join the
room and pass admission.) -/
theorem roster_exceeds_two_counterexample :
    Reachable regW3 ∧
      (lookupRoom regW3 "r").map (fun g => g.players) =
        some ["p1", "p2", "p3"] ∧
      (lookupRoom regW3 "r").map (fun g => g.players.length) = some 3 :=
  ⟨Reachable.step regW2 eW3 (Reachable.step regW1 eW2
      (Reachable.step [] eW1 Reachable.init)),
    by decide, by decide⟩

/-- C6 (amended): in every reachable session state the roster contains no
duplicate participant identifiers — a connection appends its participant
only when absent — but its length is not bounded by 2. -/
theorem reachable_roster_nodup (reg : Registry) (h : Reachable reg) :
    ∀ e ∈ reg, e.2.players.Nodup := by
  intro e he
  obtain ⟨-, -, hnd, -, -⟩ := reachable_regInv reg h e he
  exact hnd

/-- Witness for the amended C6 at a concrete input: even the three-member
roster holds no duplicates. -/
theorem reachable_roster_nodup_witness :
    gW3.players.Nodup :=
  reachable_roster_nodup regW3
    (Reachable.step regW2 eW3 (Reachable.step regW1 eW2
      (Reachable.step [] eW1 Reachable.init)))
    ("r", gW3) (by decide)

end GameRules
